import Mathlib

/-!
Verification development for the SFHA geocoder (src/sfha_geocoder.py).

The Python module classifies free-text address strings with two regular
expressions, parses legal descriptions (lot/block/subdivision), resolves
addresses through two network services, computes parcel centroids, and
drives a row-by-row spreadsheet pipeline.

Embedding choices:
* The two concrete regular expressions are embedded through a small
  backtracking engine (`mrun`) over regex syntax trees that mirror the
  source pattern strings construct by construct.  The engine returns all
  alternatives in Python backtracking priority order, so the head of the
  list is exactly the match `re.match` produces.  Pythons `\d` is embedded
  as an ASCII decimal digit; `$` accepts the end of the string or a single
  trailing newline, as in Python.
* Numeric cell values and coordinates are embedded as exact rationals.
* Fallible Python code (uncaught exceptions such as IndexError or
  TypeError, and the ZeroDivisionError inside `centroid`) is embedded with
  `Option`, where `none` marks the raised exception.
* The two HTTP services are abstracted as oracle functions producing either
  a parsed response or `failure` (any exception raised inside the `try`
  block: timeout, malformed JSON, non-2xx status, missing key).
-/

set_option autoImplicit false

namespace SFHA

/-- Pythons `\d` (embedded as ASCII decimal digit) when `digitQ` is true,
and `\D` (its complement) otherwise. -/
def charCls (digitQ : Bool) (ch : Char) : Bool :=
  if digitQ then ch.isDigit else ! ch.isDigit

/-- The text a capture group records: the prefix of `s` that was consumed,
given that `rest` is what remained after the group body matched. -/
def capStr (s rest : List Char) : String :=
  String.mk (List.take (s.length - rest.length) s)

/-- Regex syntax trees covering exactly the constructs used by the two
source patterns `PATTERN_ADDRESS` and `PATTERN_LEGAL`. -/
inductive RE : Type where
  /-- the empty regex (used to terminate literal words) -/
  | epsR : RE
  /-- a literal character -/
  | chR (c : Char) : RE
  /-- greedy `\d+` (digitQ true) or `\D+` (digitQ false) -/
  | plusR (digitQ : Bool) : RE
  /-- greedy `\d{lo,hi}` over a character class -/
  | rangeR (digitQ : Bool) (lo hi : Nat) : RE
  /-- alternation, left alternative preferred -/
  | altR (a b : RE) : RE
  /-- sequencing -/
  | seqR (a b : RE) : RE
  /-- greedy `(...){0,1}` -/
  | optR (a : RE) : RE
  /-- a numbered capture group -/
  | grpR (n : Nat) (a : RE) : RE
  /-- `$`: end of string, or just before one trailing newline -/
  | eosR : RE

/-- Does the regex end (along its sequencing spine) in `$`?  Both source
patterns do, which is what makes their matches full-string matches. -/
def tailEos : RE → Bool
  | RE.seqR _ b => tailEos b
  | RE.eosR => true
  | _ => false

/-- The backtracking matcher.  `mrun r s g` returns every way `r` can match
a prefix of `s` (remaining input, capture list), in Python backtracking
priority order; captures are threaded per alternative, so captures made on
abandoned branches do not leak, exactly as `re` resets them. -/
def mrun : RE → List Char → List (Nat × String) → List (List Char × List (Nat × String))
  | RE.epsR, s, g => [(s, g)]
  | RE.chR c, s, g =>
    match s with
    | [] => []
    | a :: rest => if a = c then [(rest, g)] else []
  | RE.plusR d, s, g =>
    let m := (s.takeWhile (charCls d)).length
    (List.range m).map (fun i => (s.drop (m - i), g))
  | RE.rangeR d lo hi, s, g =>
    let m := min (s.takeWhile (charCls d)).length hi
    (List.range (m + 1 - lo)).map (fun i => (s.drop (m - i), g))
  | RE.altR a b, s, g => mrun a s g ++ mrun b s g
  | RE.seqR a b, s, g => (mrun a s g).flatMap (fun p => mrun b p.1 p.2)
  | RE.optR a, s, g => mrun a s g ++ [(s, g)]
  | RE.grpR n a, s, g => (mrun a s g).map (fun p => (p.1, (n, capStr s p.1) :: p.2))
  | RE.eosR, s, g => if s = [] ∨ s = ['\n'] then [(s, g)] else []

/-- A literal word, one `chR` per character. -/
def litR : List Char → RE
  | [] => RE.epsR
  | c :: cs => RE.seqR (RE.chR c) (litR cs)

/-- A literal word given as a string. -/
def strR (w : String) : RE :=
  litR w.data

/-- `m.group(n)`: the last recorded capture for group `n` (`none` when the
group did not participate in the match). -/
def group (m : List (Nat × String)) (n : Nat) : Option String :=
  (m.find? (fun p => p.1 == n)).map Prod.snd

/-- `re.match`: anchored at the start; the highest-priority alternative, if
any, is the match.  Returns its capture list. -/
def reMatch (r : RE) (s : String) : Option (List (Nat × String)) :=
  (mrun r s.data []).head?.map Prod.snd

/-- Truthiness of the match object. -/
def reMatches (r : RE) (s : String) : Bool :=
  (reMatch r s).isSome

/-- Source line 30: `^\d+ [\D]+ (?:Road|Drive|Court|Cove|Boulevard|Street|Circle|\d{1,3})$`. -/
def PATTERN_ADDRESS : RE :=
  RE.seqR (RE.plusR true)
    (RE.seqR (RE.chR ' ')
      (RE.seqR (RE.plusR false)
        (RE.seqR (RE.chR ' ')
          (RE.seqR
            (RE.altR (strR "Road") (RE.altR (strR "Drive") (RE.altR (strR "Court")
              (RE.altR (strR "Cove") (RE.altR (strR "Boulevard") (RE.altR (strR "Street")
                (RE.altR (strR "Circle") (RE.rangeR true 1 3))))))))
            RE.eosR))))

/-- One `((Lot|Block) (\d+) )` unit of the legal pattern, with its three
capture-group numbers `a` (whole unit), `b` (keyword), `c` (digits). -/
def legalPair (a b c : Nat) : RE :=
  RE.grpR a (RE.seqR (RE.grpR b (RE.altR (strR "Lot") (strR "Block")))
    (RE.seqR (RE.chR ' ') (RE.seqR (RE.grpR c (RE.plusR true)) (RE.chR ' '))))

/-- Source line 33: `((Lot|Block) (\d+) )((Lot|Block) (\d+) ){0,1}(\D+)$`;
groups 1-3 are the mandatory pair, 4-6 the optional one, 7 the subdivision. -/
def PATTERN_LEGAL : RE :=
  RE.seqR (legalPair 1 2 3)
    (RE.seqR (RE.optR (legalPair 4 5 6))
      (RE.seqR (RE.grpR 7 (RE.plusR false)) RE.eosR))

/-- The `AddressType` enum (ADD = 1, LEGAL = 2, NA = 3). -/
inductive AddressType : Type where
  | ADD : AddressType
  | LEGAL : AddressType
  | NA : AddressType
  deriving DecidableEq, Repr

/-- `classify` (source lines 199-210): address pattern first, then the
legal pattern, otherwise NA. -/
def classify (addr_string : String) : AddressType :=
  if reMatches PATTERN_ADDRESS addr_string then AddressType.ADD
  else if reMatches PATTERN_LEGAL addr_string then AddressType.LEGAL
  else AddressType.NA

/-- Pythons `int` on the all-digit strings captured by `(\d+)`. -/
def pyInt (t : String) : Nat :=
  t.data.foldl (fun n ch => 10 * n + (ch.toNat - Char.toNat '0')) 0

/-- The `Legal` dataclass.  The source stores Python `None` in `lot` or
`block` when the keyword is absent, so the fields are embedded as options;
the captured numbers are nonnegative, so `Nat` suffices. -/
structure Legal : Type where
  lot : Option Nat
  block : Option Nat
  subdivision : String
  deriving DecidableEq, Repr

/-- `parse_legal` (source lines 213-229).  `none` embeds the
AttributeError Python would raise when the pattern does not match and
`m` is `None`. -/
def parse_legal (addr_string : String) : Option Legal :=
  match reMatch PATTERN_LEGAL addr_string with
  | none => none
  | some m =>
    let first_lb : Option Nat × Option Nat :=
      if group m 2 = some "Lot" then (some (pyInt ((group m 3).getD "")), none)
      else (none, some (pyInt ((group m 3).getD "")))
    let lb : Option Nat × Option Nat :=
      if (group m 4).isSome then
        if group m 5 = some "Lot" then (some (pyInt ((group m 6).getD "")), first_lb.2)
        else (first_lb.1, some (pyInt ((group m 6).getD "")))
      else first_lb
    some { lot := lb.1, block := lb.2, subdivision := (group m 7).getD "" }

/-- The `Point` dataclass; coordinates embedded as exact rationals. -/
structure Point : Type where
  x : ℚ
  y : ℚ
  deriving DecidableEq, Repr

/-- `centroid` (source lines 188-196): averages the x and y coordinates of
the first ring only.  An esri point pair `[x, y]` is embedded as a pair.
`none` embeds the IndexError on `ring[0]` for a ringless geometry and the
ZeroDivisionError when the first ring has no points. -/
def centroid (ring : List (List (ℚ × ℚ))) : Option Point :=
  match ring with
  | [] => none
  | r :: _ =>
    if r.length = 0 then none
    else some ⟨(r.map Prod.fst).sum / (r.length : ℚ), (r.map Prod.snd).sum / (r.length : ℚ)⟩

/-- Outcome of the address-candidates HTTP call, abstracted: `failure` is
any exception inside the `try` block; `ok` carries the locations of the
ranked `candidates` array. -/
inductive GeoResponse : Type where
  | failure : GeoResponse
  | ok (candidates : List Point) : GeoResponse

/-- `geocode` (source lines 94-126): first candidate, sentinel `(0,0)` on
an empty candidate list or any exception. -/
def geocode (svcA : String → GeoResponse) (address : String) : Point :=
  match svcA address with
  | GeoResponse.failure => ⟨0, 0⟩
  | GeoResponse.ok [] => ⟨0, 0⟩
  | GeoResponse.ok (c :: _) => c

/-- Outcome of the parcel-query HTTP call, abstracted: `ok` carries the
`geometry.rings` structure of each feature of the `features` array. -/
inductive ParcelResponse : Type where
  | failure : ParcelResponse
  | ok (features : List (List (List (ℚ × ℚ)))) : ParcelResponse

/-- `geocode_legal` (source lines 129-185): centroid of the first matching
features rings; sentinel `(0,0)` on zero features or any exception raised
inside the `try` block, including the one `centroid` raises on an empty
ring. -/
def geocode_legal (svcL : Legal → ParcelResponse) (legal : Legal) : Point :=
  match svcL legal with
  | ParcelResponse.failure => ⟨0, 0⟩
  | ParcelResponse.ok [] => ⟨0, 0⟩
  | ParcelResponse.ok (rings :: _) =>
    match centroid rings with
    | none => ⟨0, 0⟩
    | some p => p

/-- A spreadsheet cell as `iter_rows(values_only=True)` yields it. -/
inductive Cell : Type where
  | str (s : String) : Cell
  | num (q : ℚ) : Cell
  | null : Cell
  deriving DecidableEq, Repr

/-- Source lines 70-72: a row shorter than the (extended) header row gets
exactly two `None` cells appended, whatever the shortfall. -/
def padRow (headers : List Cell) (r : List Cell) : List Cell :=
  if r.length < headers.length then r ++ [Cell.null, Cell.null] else r

/-- Source lines 83-88: skip the row when `point.x == 0`, otherwise assign
`new_row[col_x]` and `new_row[col_y]`.  `none` embeds the IndexError a
Python list assignment raises out of bounds. -/
def writeCoords (row : List Cell) (col_x col_y : Nat) (point : Point) : Option (List Cell) :=
  if point.x = 0 then some row
  else if col_x < row.length ∧ col_y < row.length then
    some ((row.set col_x (Cell.num point.x)).set col_y (Cell.num point.y))
  else none

/-- The body of the main loop (source lines 68-88) for one row.  `none`
embeds an uncaught exception: IndexError reading `r[col_add]`, TypeError
when `re.match` receives a non-string cell value, the AttributeError of
`parse_legal` without a match, or IndexError in the coordinate assignment. -/
def processRow (svcA : String → GeoResponse) (svcL : Legal → ParcelResponse)
    (headers : List Cell) (col_add col_x col_y : Nat) (r : List Cell) : Option (List Cell) :=
  let new_row := padRow headers r
  match r[col_add]? with
  | none => none
  | some (Cell.str address_string) =>
    match classify address_string with
    | AddressType.NA => some new_row
    | AddressType.LEGAL =>
      match parse_legal address_string with
      | none => none
      | some legal => writeCoords new_row col_x col_y (geocode_legal svcL legal)
    | AddressType.ADD => writeCoords new_row col_x col_y (geocode svcA address_string)
  | some _ => none

/-- Tuple `.index` for a value known to be present (source lines 59, 64, 65). -/
def colIndex (x : Cell) : List Cell → Nat
  | [] => 0
  | c :: rest => if c = x then 0 else colIndex x rest + 1

/-- Source lines 60-63: append an `X` and a `Y` header when missing. -/
def extendHeaders (headers0 : List Cell) : List Cell :=
  let h1 := if Cell.str "X" ∈ headers0 then headers0 else headers0 ++ [Cell.str "X"]
  if Cell.str "Y" ∈ h1 then h1 else h1 ++ [Cell.str "Y"]

/-- `run` (source lines 36-91) restricted to its computational core: file
loading and saving are external collaborators, so the function takes the
decoded header row and data rows and returns the rows of the output
worksheet.  `none` embeds the two ways no output workbook is saved: the
early return when no `Address` header exists, and an uncaught exception
from the main loop. -/
def run (svcA : String → GeoResponse) (svcL : Legal → ParcelResponse)
    (headers0 : List Cell) (rows : List (List Cell)) : Option (List (List Cell)) :=
  if Cell.str "Address" ∈ headers0 then
    let col_add := colIndex (Cell.str "Address") headers0
    let headers := extendHeaders headers0
    let col_x := colIndex (Cell.str "X") headers
    let col_y := colIndex (Cell.str "Y") headers
    (rows.mapM (processRow svcA svcL headers col_add col_x col_y)).map
      (fun outRows => headers :: outRows)
  else none

/-- The `__main__` block (source lines 232-257): whether the usage text is
printed, and the argument `run` is then invoked on; `none` embeds the
IndexError `sys.argv[1]` raises when no argument was given.  The source
has no early exit after printing the usage text. -/
def mainEntry (argv : List String) : Bool × Option String :=
  (argv.length != 2, argv[1]?)

/-! ## Engine lemmas

Membership characterisations for each constructor of `mrun`, the
full-consumption lemma for `$`-terminated patterns, and the dissection of
the capture lists a `PATTERN_LEGAL` match can produce. -/

theorem takeWhile_len_le (p : Char → Bool) : ∀ l : List Char, (l.takeWhile p).length ≤ l.length := by
  intro l
  induction l with
  | nil => simp
  | cons a t ih =>
    by_cases hp : p a = true
    · simp only [List.takeWhile_cons, hp, if_true, List.length_cons]
      omega
    · simp [List.takeWhile_cons, hp]

theorem mem_mrun_eps {s : List Char} {g : List (Nat × String)} {res : List Char × List (Nat × String)} :
    res ∈ mrun RE.epsR s g ↔ res = (s, g) := by
  simp [mrun]

theorem mem_mrun_ch {c : Char} {s : List Char} {g : List (Nat × String)}
    {res : List Char × List (Nat × String)} :
    res ∈ mrun (RE.chR c) s g ↔ ∃ rest, s = c :: rest ∧ res = (rest, g) := by
  cases s with
  | nil => simp [mrun]
  | cons a rest =>
    by_cases hac : a = c
    · subst hac; simp [mrun]
    · simp [mrun, hac]

theorem mem_mrun_alt {a b : RE} {s : List Char} {g : List (Nat × String)}
    {res : List Char × List (Nat × String)} :
    res ∈ mrun (RE.altR a b) s g ↔ res ∈ mrun a s g ∨ res ∈ mrun b s g := by
  simp [mrun]

theorem mem_mrun_opt {a : RE} {s : List Char} {g : List (Nat × String)}
    {res : List Char × List (Nat × String)} :
    res ∈ mrun (RE.optR a) s g ↔ res ∈ mrun a s g ∨ res = (s, g) := by
  simp [mrun]

theorem mem_mrun_seq {a b : RE} {s : List Char} {g : List (Nat × String)}
    {res : List Char × List (Nat × String)} :
    res ∈ mrun (RE.seqR a b) s g ↔ ∃ p, p ∈ mrun a s g ∧ res ∈ mrun b p.1 p.2 := by
  simp [mrun, List.mem_flatMap]

theorem mem_mrun_grp {n : Nat} {a : RE} {s : List Char} {g : List (Nat × String)}
    {res : List Char × List (Nat × String)} :
    res ∈ mrun (RE.grpR n a) s g ↔
      ∃ p, p ∈ mrun a s g ∧ res = (p.1, (n, capStr s p.1) :: p.2) := by
  constructor
  · intro h
    simp only [mrun, List.mem_map] at h
    obtain ⟨p, hp, he⟩ := h
    exact ⟨p, hp, he.symm⟩
  · rintro ⟨p, hp, rfl⟩
    simp only [mrun, List.mem_map]
    exact ⟨p, hp, rfl⟩

theorem mem_mrun_eos {s : List Char} {g : List (Nat × String)}
    {res : List Char × List (Nat × String)} :
    res ∈ mrun RE.eosR s g ↔ (s = [] ∨ s = ['\n']) ∧ res = (s, g) := by
  by_cases hc : s = [] ∨ s = ['\n'] <;> simp [mrun, hc]

theorem mem_mrun_plus {d : Bool} {s : List Char} {g : List (Nat × String)}
    {res : List Char × List (Nat × String)} :
    res ∈ mrun (RE.plusR d) s g ↔
      ∃ k, 1 ≤ k ∧ k ≤ (s.takeWhile (charCls d)).length ∧ res = (s.drop k, g) := by
  constructor
  · intro h
    simp only [mrun, List.mem_map, List.mem_range] at h
    obtain ⟨i, hi, he⟩ := h
    exact ⟨(s.takeWhile (charCls d)).length - i, by omega, by omega, he.symm⟩
  · rintro ⟨k, hk1, hk2, rfl⟩
    simp only [mrun, List.mem_map, List.mem_range]
    refine ⟨(s.takeWhile (charCls d)).length - k, by omega, ?_⟩
    have hkk : (s.takeWhile (charCls d)).length - ((s.takeWhile (charCls d)).length - k) = k :=
      Nat.sub_sub_self hk2
    rw [hkk]

theorem mem_mrun_lit : ∀ {l s : List Char} {g : List (Nat × String)}
    {res : List Char × List (Nat × String)},
    res ∈ mrun (litR l) s g ↔ ∃ rest, s = l ++ rest ∧ res = (rest, g) := by
  intro l
  induction l with
  | nil => intro s g res; simp [litR, mem_mrun_eps]
  | cons c cs ih =>
    intro s g res
    simp only [litR, mem_mrun_seq, mem_mrun_ch, ih]
    constructor
    · rintro ⟨p, ⟨rest, rfl, rfl⟩, ⟨rest2, rfl, rfl⟩⟩
      exact ⟨rest2, rfl, rfl⟩
    · rintro ⟨rest, rfl, rfl⟩
      exact ⟨(cs ++ rest, g), ⟨cs ++ rest, rfl, rfl⟩, ⟨rest, rfl, rfl⟩⟩

/-- Any result of a pattern whose sequencing spine ends in `$` leaves
either nothing or a single trailing newline unconsumed: such a match is a
full-string match, not a substring search. -/
theorem mrun_tailEos : ∀ (r : RE), tailEos r = true →
    ∀ (s : List Char) (g : List (Nat × String)) (res : List Char × List (Nat × String)),
    res ∈ mrun r s g → res.1 = [] ∨ res.1 = ['\n'] := by
  intro r
  induction r with
  | seqR a b iha ihb =>
    intro ht s g res hres
    rw [mem_mrun_seq] at hres
    obtain ⟨p, _, hp⟩ := hres
    exact ihb (by simpa [tailEos] using ht) _ _ _ hp
  | eosR =>
    intro ht s g res hres
    rw [mem_mrun_eos] at hres
    rcases hres with ⟨hc, rfl⟩
    exact hc
  | epsR => intro ht; simp [tailEos] at ht
  | chR c => intro ht; simp [tailEos] at ht
  | plusR d => intro ht; simp [tailEos] at ht
  | rangeR d lo hi => intro ht; simp [tailEos] at ht
  | altR a b iha ihb => intro ht; simp [tailEos] at ht
  | optR a iha => intro ht; simp [tailEos] at ht
  | grpR n a iha => intro ht; simp [tailEos] at ht

theorem capStr_append (l rest : List Char) : capStr (l ++ rest) rest = String.mk l := by
  unfold capStr
  rw [List.length_append, Nat.add_sub_cancel, List.take_left]

/-- What one `((Lot|Block) (\d+) )` unit records: three new captures on top
of the incoming list, the keyword capture being `Lot` or `Block`. -/
theorem mem_legalPair {a b c : Nat} {s : List Char} {g : List (Nat × String)}
    {res : List Char × List (Nat × String)}
    (h : res ∈ mrun (legalPair a b c) s g) :
    ∃ x y z, (y = "Lot" ∨ y = "Block") ∧ res.2 = (a, x) :: (c, z) :: (b, y) :: g := by
  unfold legalPair at h
  rw [mem_mrun_grp] at h
  obtain ⟨p, hp, hres⟩ := h
  rw [mem_mrun_seq] at hp
  obtain ⟨q1, hq1, hp⟩ := hp
  rw [mem_mrun_grp] at hq1
  obtain ⟨u, hu, hq1e⟩ := hq1
  rw [mem_mrun_seq] at hp
  obtain ⟨w1, hw1, hp⟩ := hp
  rw [mem_mrun_ch] at hw1
  obtain ⟨s2, hs2, hw1e⟩ := hw1
  rw [mem_mrun_seq] at hp
  obtain ⟨v, hv, hp⟩ := hp
  rw [mem_mrun_grp] at hv
  obtain ⟨q2, hq2, hve⟩ := hv
  rw [mem_mrun_plus] at hq2
  obtain ⟨k, hk1, hk2, hq2e⟩ := hq2
  rw [mem_mrun_ch] at hp
  obtain ⟨s3, hs3, hpe⟩ := hp
  rw [mem_mrun_alt] at hu
  have hu' : ∃ kw, (String.mk kw = "Lot" ∨ String.mk kw = "Block") ∧
      s = kw ++ u.1 ∧ u.2 = g := by
    rcases hu with h1 | h1
    · obtain ⟨rest, hsr, hur⟩ := (mem_mrun_lit (l := "Lot".data)).1 (by simpa [strR] using h1)
      exact ⟨"Lot".data, Or.inl rfl, by rw [hur]; exact hsr, by rw [hur]⟩
    · obtain ⟨rest, hsr, hur⟩ := (mem_mrun_lit (l := "Block".data)).1 (by simpa [strR] using h1)
      exact ⟨"Block".data, Or.inr rfl, by rw [hur]; exact hsr, by rw [hur]⟩
  obtain ⟨kw, hkwlb, hskw, hu2g⟩ := hu'
  have h1 : res.2 = (a, capStr s p.1) :: p.2 := by rw [hres]
  have h2 : p.2 = v.2 := by rw [hpe]
  have h3 : v.2 = (c, capStr w1.1 q2.1) :: q2.2 := by rw [hve]
  have h4 : q2.2 = w1.2 := by rw [hq2e]
  have h5 : w1.2 = q1.2 := by rw [hw1e]
  have h6 : q1.2 = (b, capStr s u.1) :: u.2 := by rw [hq1e]
  have hy : capStr s u.1 = String.mk kw := by rw [hskw]; exact capStr_append kw u.1
  refine ⟨capStr s p.1, String.mk kw, capStr w1.1 q2.1, hkwlb, ?_⟩
  rw [h1, h2, h3, h4, h5, h6, hu2g, hy]

/-- What a full `PATTERN_LEGAL` match records: groups 2 and 3 always
capture (group 2 a keyword), groups 4-6 capture together or not at all,
and group 7 captures a nonempty subdivision string. -/
theorem legal_groups {s : List Char} {res : List Char × List (Nat × String)}
    (h : res ∈ mrun PATTERN_LEGAL s []) :
    (group res.2 2 = some "Lot" ∨ group res.2 2 = some "Block") ∧
    (group res.2 3).isSome = true ∧
    ((group res.2 4 = none ∧ group res.2 5 = none ∧ group res.2 6 = none) ∨
      ((group res.2 4).isSome = true ∧
        (group res.2 5 = some "Lot" ∨ group res.2 5 = some "Block") ∧
        (group res.2 6).isSome = true)) ∧
    (∃ t, group res.2 7 = some t ∧ t ≠ "") := by
  unfold PATTERN_LEGAL at h
  rw [mem_mrun_seq] at h
  obtain ⟨p1, hp1, h⟩ := h
  rw [mem_mrun_seq] at h
  obtain ⟨p2, hp2, h⟩ := h
  rw [mem_mrun_seq] at h
  obtain ⟨p3, hp3, h⟩ := h
  rw [mem_mrun_eos] at h
  obtain ⟨-, hres⟩ := h
  rw [mem_mrun_grp] at hp3
  obtain ⟨q, hq, hp3e⟩ := hp3
  rw [mem_mrun_plus] at hq
  obtain ⟨k, hk1, hk2, hqe⟩ := hq
  obtain ⟨x1, y1, z1, hy1, hg1⟩ := mem_legalPair hp1
  have hklen : k ≤ p2.1.length := le_trans hk2 (takeWhile_len_le _ _)
  have hq1e : q.1 = List.drop k p2.1 := by rw [hqe]
  have hq2e : q.2 = p2.2 := by rw [hqe]
  have hcapne : capStr p2.1 q.1 ≠ "" := by
    rw [hq1e]
    unfold capStr
    rw [List.length_drop, Nat.sub_sub_self hklen]
    intro hemp
    have hd : List.take k p2.1 = [] := congrArg String.data hemp
    have hlen := congrArg List.length hd
    rw [List.length_take] at hlen
    simp only [List.length_nil] at hlen
    omega
  have hres2 : res.2 = (7, capStr p2.1 q.1) :: p2.2 := by
    rw [hres, hp3e, hq2e]
  rw [mem_mrun_opt] at hp2
  rcases hp2 with hp2m | hp2e
  · obtain ⟨x2, y2, z2, hy2, hg2⟩ := mem_legalPair hp2m
    rw [hg1] at hg2
    rw [hg2] at hres2
    refine ⟨?_, ?_, Or.inr ⟨?_, ?_, ?_⟩, capStr p2.1 q.1, ?_, hcapne⟩
    · rcases hy1 with rfl | rfl
      · left; simp [group, hres2]
      · right; simp [group, hres2]
    · simp [group, hres2]
    · simp [group, hres2]
    · rcases hy2 with rfl | rfl
      · left; simp [group, hres2]
      · right; simp [group, hres2]
    · simp [group, hres2]
    · simp [group, hres2]
  · have hp2p1 : p2.2 = p1.2 := by rw [hp2e]
    rw [hp2p1, hg1] at hres2
    refine ⟨?_, ?_, Or.inl ⟨?_, ?_, ?_⟩, capStr p2.1 q.1, ?_, hcapne⟩
    · rcases hy1 with rfl | rfl
      · left; simp [group, hres2]
      · right; simp [group, hres2]
    · simp [group, hres2]
    · simp [group, hres2]
    · simp [group, hres2]
    · simp [group, hres2]
    · simp [group, hres2]

/-! ## Claim theorems -/

/-- C1: `classify` returns `ADD` exactly when the street-address pattern
matches (so the street pattern takes precedence even when the legal
pattern would also match), `LEGAL` exactly when the street pattern fails
and the legal pattern matches, and `NA` otherwise; each pattern only
succeeds as a full-string match (a successful match leaves nothing, or a
single trailing newline, unconsumed); `classify ""` and `classify "123"`
are both `NA`.  `classify` is a total Lean function, so it never raises. -/
theorem classify_full_match_precedence (s : String) :
    (classify s = AddressType.ADD ↔ reMatches PATTERN_ADDRESS s = true) ∧
    (classify s = AddressType.LEGAL ↔
      reMatches PATTERN_ADDRESS s = false ∧ reMatches PATTERN_LEGAL s = true) ∧
    (classify s = AddressType.NA ↔
      reMatches PATTERN_ADDRESS s = false ∧ reMatches PATTERN_LEGAL s = false) ∧
    (∀ rem g, (rem, g) ∈ mrun PATTERN_ADDRESS s.data [] → rem = [] ∨ rem = ['\n']) ∧
    (∀ rem g, (rem, g) ∈ mrun PATTERN_LEGAL s.data [] → rem = [] ∨ rem = ['\n']) ∧
    classify "" = AddressType.NA ∧ classify "123" = AddressType.NA := by
  refine ⟨?_, ?_, ?_,
    fun rem g hm => mrun_tailEos PATTERN_ADDRESS (by rfl) _ _ _ hm,
    fun rem g hm => mrun_tailEos PATTERN_LEGAL (by rfl) _ _ _ hm,
    by decide, by decide⟩
  · cases h1 : reMatches PATTERN_ADDRESS s <;> cases h2 : reMatches PATTERN_LEGAL s <;>
      simp [classify, h1, h2]
  · cases h1 : reMatches PATTERN_ADDRESS s <;> cases h2 : reMatches PATTERN_LEGAL s <;>
      simp [classify, h1, h2]
  · cases h1 : reMatches PATTERN_ADDRESS s <;> cases h2 : reMatches PATTERN_LEGAL s <;>
      simp [classify, h1, h2]

/-- Witness for C1 at the concrete address string `123 Main Street`:
it is classified as a street address, and the engine result named by the
full-match conjunct is the fully consumed one. -/
theorem classify_full_match_precedence_witness :
    classify "123 Main Street" = AddressType.ADD ∧
    (([] : List Char) = [] ∨ ([] : List Char) = ['\n']) :=
  ⟨(classify_full_match_precedence "123 Main Street").1.mpr (by decide),
   (classify_full_match_precedence "123 Main Street").2.2.2.1 [] [] (by decide)⟩

/-- C3: `centroid` depends only on the first ring (later rings are
ignored), returns the arithmetic mean of the x and of the y coordinates of
that rings points, and on the ring `[[0,0],[4,0],[4,4],[0,4]]` returns
`(2, 2)`. -/
theorem centroid_first_ring_mean :
    (∀ (r : List (ℚ × ℚ)) (rest rest2 : List (List (ℚ × ℚ))),
      centroid (r :: rest) = centroid (r :: rest2)) ∧
    (∀ (r : List (ℚ × ℚ)) (rest : List (List (ℚ × ℚ))), r ≠ [] →
      centroid (r :: rest) =
        some ⟨(r.map Prod.fst).sum / (r.length : ℚ), (r.map Prod.snd).sum / (r.length : ℚ)⟩) ∧
    centroid [[(0, 0), (4, 0), (4, 4), (0, 4)]] = some ⟨2, 2⟩ := by
  refine ⟨fun r rest rest2 => rfl, fun r rest hr => ?_, by simp [centroid]; norm_num⟩
  simp [centroid, List.length_eq_zero, hr]

/-- Witness for C3 on the two-point first ring `[(1,2),(3,4)]` with a
second ring present. -/
theorem centroid_first_ring_mean_witness :
    centroid [[((1 : ℚ), (2 : ℚ)), (3, 4)], [(5, 5)]] = some ⟨2, 3⟩ := by
  have h := centroid_first_ring_mean.2.1 [((1 : ℚ), (2 : ℚ)), (3, 4)] [[(5, 5)]] (by decide)
  rw [h]
  norm_num

/-- C5: `geocode` is a total function (it never raises), returns the
sentinel `(0, 0)` when the service call fails for any reason or when the
candidate list is empty, and otherwise returns the location of the first
candidate of the ranked list. -/
theorem geocode_never_raises (svcA : String → GeoResponse) (address : String) :
    (svcA address = GeoResponse.failure → geocode svcA address = ⟨0, 0⟩) ∧
    (svcA address = GeoResponse.ok [] → geocode svcA address = ⟨0, 0⟩) ∧
    (∀ c cs, svcA address = GeoResponse.ok (c :: cs) → geocode svcA address = c) := by
  refine ⟨fun h => ?_, fun h => ?_, fun c cs h => ?_⟩ <;> simp [geocode, h]

/-- Witness for C5: a service answering one candidate. -/
theorem geocode_never_raises_witness :
    geocode (fun _ => GeoResponse.ok [⟨3, 4⟩]) "501 Main Street" = ⟨3, 4⟩ :=
  (geocode_never_raises (fun _ => GeoResponse.ok [⟨3, 4⟩]) "501 Main Street").2.2 ⟨3, 4⟩ [] rfl

/-- C6: `centroid` fails (raises ZeroDivisionError, embedded as `none`)
when the first ring has zero points, and `geocode_legal` converts that
failure into the sentinel `(0, 0)` instead of propagating it. -/
theorem centroid_empty_guard :
    (∀ rest : List (List (ℚ × ℚ)), centroid ([] :: rest) = none) ∧
    (∀ (svcL : Legal → ParcelResponse) (legal : Legal) (rest : List (List (ℚ × ℚ)))
      (fs : List (List (List (ℚ × ℚ)))),
      svcL legal = ParcelResponse.ok (([] :: rest) :: fs) →
      geocode_legal svcL legal = ⟨0, 0⟩) := by
  refine ⟨fun rest => rfl, fun svcL legal rest fs h => ?_⟩
  simp [geocode_legal, h, centroid]

/-- Witness for C6: a parcel service returning one feature with one empty
ring resolves to the sentinel. -/
theorem centroid_empty_guard_witness :
    geocode_legal (fun _ => ParcelResponse.ok [[[]]]) ⟨some 1, none, "Shady"⟩ = ⟨0, 0⟩ :=
  centroid_empty_guard.2 (fun _ => ParcelResponse.ok [[[]]]) ⟨some 1, none, "Shady"⟩ [] [] rfl

/-- C9: the `__main__` block has no exit after printing the usage text.
With three arguments the usage text is printed and `run` is still invoked
on `argv[1]`; with one argument the usage text is printed and then
`sys.argv[1]` raises IndexError (`none`).  The claim that a wrong argument
count exits without processing is therefore false of the code. -/
theorem main_processes_despite_usage :
    mainEntry ["sfha_geocoder.py", "input.xlsx", "extra.xlsx"] = (true, some "input.xlsx") ∧
    mainEntry ["sfha_geocoder.py"] = (true, none) :=
  ⟨rfl, rfl⟩

/-- C10: any data row shorter than the extended header row gets exactly
two `None` cells appended, whatever the shortfall; for a row as long as
the original header row this pads to the header length when both `X` and
`Y` were newly added, but overshoots by one cell when exactly one of them
was newly added. -/
theorem padRow_two_cells (headers0 : List Cell) (r : List Cell) :
    (r.length < (extendHeaders headers0).length →
      padRow (extendHeaders headers0) r = r ++ [Cell.null, Cell.null]) ∧
    (r.length = headers0.length → Cell.str "X" ∉ headers0 → Cell.str "Y" ∉ headers0 →
      (padRow (extendHeaders headers0) r).length = (extendHeaders headers0).length) ∧
    (r.length = headers0.length → Cell.str "X" ∈ headers0 → Cell.str "Y" ∉ headers0 →
      (padRow (extendHeaders headers0) r).length = (extendHeaders headers0).length + 1) ∧
    (r.length = headers0.length → Cell.str "X" ∉ headers0 → Cell.str "Y" ∈ headers0 →
      (padRow (extendHeaders headers0) r).length = (extendHeaders headers0).length + 1) := by
  have hyx : (Cell.str "Y" : Cell) ≠ Cell.str "X" := by decide
  refine ⟨fun h => by simp [padRow, h], fun hlen hx hy => ?_, fun hlen hx hy => ?_,
    fun hlen hx hy => ?_⟩
  · have hh : extendHeaders headers0 = headers0 ++ [Cell.str "X"] ++ [Cell.str "Y"] := by
      simp [extendHeaders, hx, hy, hyx]
    simp [padRow, hh, hlen]
  · have hh : extendHeaders headers0 = headers0 ++ [Cell.str "Y"] := by
      simp [extendHeaders, hx, hy]
    simp [padRow, hh, hlen]
  · have hh : extendHeaders headers0 = headers0 ++ [Cell.str "X"] := by
      simp [extendHeaders, hx, hy]
    simp [padRow, hh, hlen]

/-- Witness for C10: a one-column sheet with only an `Address` header is
padded to the extended header length. -/
theorem padRow_two_cells_witness :
    (padRow (extendHeaders [Cell.str "Address"]) [Cell.str "12 A Cove"]).length =
      (extendHeaders [Cell.str "Address"]).length :=
  (padRow_two_cells [Cell.str "Address"] [Cell.str "12 A Cove"]).2.1
    (by decide) (by decide) (by decide)

/-- C2: on every matched legal description, the integer captured after
keyword `Lot` lands in `lot` and the one captured after `Block` lands in
`block`, the later (optional second) pair overwriting the earlier one when
both use the same keyword; an absent keyword leaves its field `none`; the
subdivision is the final capture verbatim.  The concrete conjuncts
exercise both pairs, each single pair, and the overwrite case. -/
theorem parse_legal_assignment :
    (∀ (s : String) (m : List (Nat × String)), reMatch PATTERN_LEGAL s = some m →
      parse_legal s = some {
        lot := if group m 5 = some "Lot" then (group m 6).map pyInt
               else if group m 2 = some "Lot" then (group m 3).map pyInt else none,
        block := if group m 5 = some "Block" then (group m 6).map pyInt
                 else if group m 2 = some "Block" then (group m 3).map pyInt else none,
        subdivision := (group m 7).getD "" }) ∧
    parse_legal "Lot 12 Block 3 Shadylane" = some ⟨some 12, some 3, "Shadylane"⟩ ∧
    parse_legal "Lot 12 Shadylane" = some ⟨some 12, none, "Shadylane"⟩ ∧
    parse_legal "Block 3 Shadylane" = some ⟨none, some 3, "Shadylane"⟩ ∧
    parse_legal "Lot 1 Lot 2 Shadylane" = some ⟨some 2, none, "Shadylane"⟩ := by
  have hLB : ("Lot" : String) ≠ "Block" := by decide
  have hBL : ("Block" : String) ≠ "Lot" := by decide
  refine ⟨?_, by decide, by decide, by decide, by decide⟩
  intro s m hm
  obtain ⟨res, rest, hml, hres2⟩ :
      ∃ res rest, mrun PATTERN_LEGAL s.data [] = res :: rest ∧ res.2 = m := by
    rcases hml : mrun PATTERN_LEGAL s.data [] with _ | ⟨a, t⟩
    · rw [reMatch, hml] at hm
      simp at hm
    · rw [reMatch, hml] at hm
      simp at hm
      exact ⟨a, t, rfl, hm⟩
  have hmm : res ∈ mrun PATTERN_LEGAL s.data [] := by
    rw [hml]; exact List.mem_cons_self _ _
  obtain ⟨h2, h3, h456, t7, h7, h7ne⟩ := legal_groups hmm
  rw [hres2] at h2 h3 h456 h7
  rw [Option.isSome_iff_exists] at h3
  obtain ⟨t3, h3⟩ := h3
  rcases h456 with ⟨h4, h5, h6⟩ | ⟨h4, h5, h6⟩
  · rcases h2 with h2 | h2 <;> simp [parse_legal, hm, h2, h3, h4, h5, hLB, hBL]
  · rw [Option.isSome_iff_exists] at h4 h6
    obtain ⟨t4, h4⟩ := h4
    obtain ⟨t6, h6⟩ := h6
    rcases h5 with h5 | h5 <;> rcases h2 with h2 | h2 <;>
      simp [parse_legal, hm, h2, h3, h4, h5, h6, hLB, hBL]

/-- Witness for C2 at a concrete single-pair legal description, applying
the general assignment conjunct to its concrete match. -/
theorem parse_legal_assignment_witness :
    reMatch PATTERN_LEGAL "Block 7 Oakwood" =
      some [(7, "Oakwood"), (1, "Block 7 "), (3, "7"), (2, "Block")] ∧
    parse_legal "Block 7 Oakwood" = some ⟨none, some 7, "Oakwood"⟩ := by
  refine ⟨by decide, ?_⟩
  have h := parse_legal_assignment.1 "Block 7 Oakwood"
    [(7, "Oakwood"), (1, "Block 7 "), (3, "7"), (2, "Block")] (by decide)
  exact h.trans (by decide)

/-- C7: every string `classify` marks as a legal description parses to a
`Legal` value with at least one of `lot`/`block` set and a nonempty
subdivision. -/
theorem parse_legal_invariant (s : String) (h : classify s = AddressType.LEGAL) :
    ∃ l, parse_legal s = some l ∧ (l.lot ≠ none ∨ l.block ≠ none) ∧ l.subdivision ≠ "" := by
  have hL : reMatches PATTERN_LEGAL s = true := by
    by_cases h1 : reMatches PATTERN_ADDRESS s = true
    · simp [classify, h1] at h
    · by_cases h2 : reMatches PATTERN_LEGAL s = true
      · exact h2
      · simp [classify, h1, h2] at h
  obtain ⟨res, rest, hml⟩ : ∃ res rest, mrun PATTERN_LEGAL s.data [] = res :: rest := by
    rcases hml : mrun PATTERN_LEGAL s.data [] with _ | ⟨a, t⟩
    · rw [reMatches, reMatch, hml] at hL
      simp at hL
    · exact ⟨a, t, rfl⟩
  have hmm : res ∈ mrun PATTERN_LEGAL s.data [] := by
    rw [hml]; exact List.mem_cons_self _ _
  have hre : reMatch PATTERN_LEGAL s = some res.2 := by
    rw [reMatch, hml]; rfl
  obtain ⟨-, -, -, t7, h7, h7ne⟩ := legal_groups hmm
  obtain ⟨l, hpl, hsub, hlb⟩ :
      ∃ l, parse_legal s = some l ∧ l.subdivision = (group res.2 7).getD "" ∧
        (l.lot ≠ none ∨ l.block ≠ none) := by
    by_cases hc2 : group res.2 2 = some "Lot" <;>
      by_cases hc4 : (group res.2 4).isSome = true <;>
      by_cases hc5 : group res.2 5 = some "Lot" <;>
      simp [parse_legal, hre, hc2, hc4, hc5]
  exact ⟨l, hpl, hlb, by rw [hsub, h7]; simpa using h7ne⟩

/-- Witness for C7 at a concrete legal description. -/
theorem parse_legal_invariant_witness :
    classify "Lot 12 Shadylane" = AddressType.LEGAL ∧
    ∃ l, parse_legal "Lot 12 Shadylane" = some l ∧
      (l.lot ≠ none ∨ l.block ≠ none) ∧ l.subdivision ≠ "" :=
  ⟨by decide, parse_legal_invariant "Lot 12 Shadylane" (by decide)⟩

/-- C4 counterexample: the resolved point `(0, 5)` differs from the
sentinel `(0, 0)`, yet the pipeline leaves the `X` and `Y` cells of the
row untouched, because the source tests only `point.x == 0`; so writing
does not happen if and only if the point equals the sentinel. -/
theorem pipeline_sentinel_counterexample :
    geocode (fun _ => GeoResponse.ok [⟨0, 5⟩]) "123 Main Street" ≠ Point.mk 0 0 ∧
    run (fun _ => GeoResponse.ok [⟨0, 5⟩]) (fun _ => ParcelResponse.failure)
      [Cell.str "Address"] [[Cell.str "123 Main Street"]] =
      some [[Cell.str "Address", Cell.str "X", Cell.str "Y"],
        [Cell.str "123 Main Street", Cell.null, Cell.null]] :=
  ⟨by decide, by decide⟩

/-- C4 amended: for every resolved point `p` of a row — whether the row
was resolved through the street-address service (`classify` = ADD, `p` is
`geocode` of the address) or through the parse-then-parcel path
(`classify` = LEGAL, `p` is `geocode_legal` of the parsed legal
description) — the pipeline writes `p.x` and `p.y` into the `X`/`Y` cells
exactly when `p.x` is nonzero; any resolved point with x = 0 — in
particular the sentinel `(0, 0)` — leaves the row untouched, so a literal
0 is never written into the `X` column. -/
theorem pipeline_writes_iff_x_nonzero (svcA : String → GeoResponse)
    (svcL : Legal → ParcelResponse) (headers : List Cell) (col_add col_x col_y : Nat)
    (r : List Cell) (t : String) (p : Point)
    (hcell : r[col_add]? = some (Cell.str t))
    (hp : (classify t = AddressType.ADD ∧ p = geocode svcA t) ∨
      (∃ legal, classify t = AddressType.LEGAL ∧ parse_legal t = some legal ∧
        p = geocode_legal svcL legal)) :
    (p.x = 0 → processRow svcA svcL headers col_add col_x col_y r = some (padRow headers r)) ∧
    (p.x ≠ 0 → col_x < (padRow headers r).length → col_y < (padRow headers r).length →
      processRow svcA svcL headers col_add col_x col_y r =
        some (((padRow headers r).set col_x (Cell.num p.x)).set col_y (Cell.num p.y))) := by
  rcases hp with ⟨hclass, rfl⟩ | ⟨legal, hclass, hpar, rfl⟩
  · constructor
    · intro hx
      simp [processRow, hcell, hclass, writeCoords, hx]
    · intro hx hcx hcy
      simp [processRow, hcell, hclass, writeCoords, hx, hcx, hcy]
  · constructor
    · intro hx
      simp [processRow, hcell, hclass, hpar, writeCoords, hx]
    · intro hx hcx hcy
      simp [processRow, hcell, hclass, hpar, writeCoords, hx, hcx, hcy]

/-- Witness for the amended C4, exercising both resolution paths: a legal
description whose parcel centroid is `(3, 6)` gets those coordinates
written, and a street address with candidate `(7, 8)` likewise. -/
theorem pipeline_writes_iff_x_nonzero_witness :
    processRow (fun _ => GeoResponse.failure) (fun _ => ParcelResponse.ok [[[(3, 6)]]])
      [Cell.str "Address", Cell.str "X", Cell.str "Y"] 0 1 2 [Cell.str "Lot 12 Shadylane"] =
      some [Cell.str "Lot 12 Shadylane", Cell.num 3, Cell.num 6] ∧
    processRow (fun _ => GeoResponse.ok [⟨7, 8⟩]) (fun _ => ParcelResponse.failure)
      [Cell.str "Address", Cell.str "X", Cell.str "Y"] 0 1 2 [Cell.str "123 Main Street"] =
      some [Cell.str "123 Main Street", Cell.num 7, Cell.num 8] := by
  constructor
  · have hgl : geocode_legal (fun _ => ParcelResponse.ok [[[(3, 6)]]])
        ⟨some 12, none, "Shadylane"⟩ = ⟨3, 6⟩ := by
      norm_num [geocode_legal, centroid]
    have h := (pipeline_writes_iff_x_nonzero (fun _ => GeoResponse.failure)
      (fun _ => ParcelResponse.ok [[[(3, 6)]]])
      [Cell.str "Address", Cell.str "X", Cell.str "Y"] 0 1 2
      [Cell.str "Lot 12 Shadylane"] "Lot 12 Shadylane" ⟨3, 6⟩ (by decide)
      (Or.inr ⟨⟨some 12, none, "Shadylane"⟩, by decide, by decide, hgl.symm⟩)).2
      (by decide) (by decide) (by decide)
    exact h.trans (by decide)
  · have h := (pipeline_writes_iff_x_nonzero (fun _ => GeoResponse.ok [⟨7, 8⟩])
      (fun _ => ParcelResponse.failure) [Cell.str "Address", Cell.str "X", Cell.str "Y"]
      0 1 2 [Cell.str "123 Main Street"] "123 Main Street" ⟨7, 8⟩ (by decide)
      (Or.inl ⟨by decide, by decide⟩)).2
      (by decide) (by decide) (by decide)
    exact h.trans (by decide)

/-- C8: a data row whose `Address` cell is empty (Python `None`, a very
ordinary spreadsheet state) reaches `re.match` as a non-string, which
raises TypeError; `run` aborts and saves no output workbook at all, so
the row appears in no output — contradicting the round-trip claim and the
programs own usage text, which promises that address fields matching
neither pattern are skipped and all data copied. -/
theorem run_crashes_on_null_address :
    run (fun _ => GeoResponse.failure) (fun _ => ParcelResponse.failure)
      [Cell.str "Address"] [[Cell.null]] = none := by
  decide

end SFHA
